import Mathlib

/-!
Verification development for the kirk test-execution engine (libkirk).

The definitions below are a shallow embedding of the Python sources:
`libkirk/sut.py`, `libkirk/host.py` and `libkirk/scheduler.py`.  Pure
computations are translated into Lean functions; the async control flow of
the schedulers is translated into explicit state passing, with the
environment (command outcomes, taint probes, inner-scheduler iterations)
supplied as explicit oracle parameters.  Machine integers are `Int`/`Nat`
(Python integers are unbounded, so no wrap-around modelling is needed) and
fallible code returns `Except`/`Option`.
-/

/-! ## Data model

`libkirk/data.py` and `libkirk/results.py` are imported by `scheduler.py`
but are not part of the available sources, so the record types below are
modelled from the specification (spec §3 "DATA MODEL").
-/

/-- Modelled from the spec: `libkirk/data.py` is missing from the sources.
A `Test` is an immutable execution spec: name (identity, unique within a
suite), the full shell command, and a `parallelizable` flag. -/
structure Test where
  name : String
  full_command : String
  parallelizable : Bool
deriving DecidableEq

/-- Modelled from the spec: `libkirk/data.py` is missing from the sources.
A `Suite` is a named ordered sequence of `Test`. -/
structure Suite where
  name : String
  tests : List Test
deriving DecidableEq

/-- Modelled from the spec: `libkirk/results.py` is missing from the
sources.  A `TestResults` record is the outcome of one test execution:
assertion counts, return code, captured stdout and duration.  The Python
object holds the `Test` itself; the schedulers only ever consult
`result.test.name`, which is `testName` here.  Durations are modelled as
`Nat` seconds. -/
structure TestResults where
  testName : String
  passed : Nat
  failed : Nat
  broken : Nat
  skipped : Nat
  warnings : Nat
  retcode : Int
  exec_time : Nat
  stdout : String
deriving DecidableEq

/-- SUT information record returned by `SUT.get_info`
(`libkirk/sut.py`). -/
structure SutInfo where
  distro : String
  distro_ver : String
  kernel : String
  arch : String
  cpu : String
  ram : String
  swap : String
deriving DecidableEq

/-- Modelled from the spec: `libkirk/results.py` is missing from the
sources.  A `SuiteResults` record aggregates a suite's `TestResults`
collection plus the environment metadata snapshotted at suite-run time. -/
structure SuiteResults where
  suiteName : String
  tests : List TestResults
  distro : String
  distro_ver : String
  kernel : String
  arch : String
  cpu : String
  swap : String
  ram : String
deriving DecidableEq

/-- Command execution record returned by `SUT.run_command`
(`libkirk/sut.py`): `{command, returncode, stdout, exec_time}`. -/
structure CmdResult where
  command : String
  stdout : String
  returncode : Int
  exec_time : Nat
deriving DecidableEq

/-! ## `libkirk/sut.py` — taint decoding -/

/-- The fixed ordered taint-reason table `TAINTED_MSG` from
`libkirk/sut.py`. -/
def TAINTED_MSG : List String := [
  "proprietary module was loaded",
  "module was force loaded",
  "kernel running on an out of specification system",
  "module was force unloaded",
  "processor reported a Machine Check Exception (MCE)",
  "bad page referenced or some unexpected page flags",
  "taint requested by userspace application",
  "kernel died recently, i.e. there was an OOPS or BUG",
  "ACPI table overridden by user",
  "kernel issued warning",
  "staging driver was loaded",
  "workaround for bug in platform firmware applied",
  "externally-built (“out-of-tree”) module was loaded",
  "unsigned module was loaded",
  "soft lockup occurred",
  "kernel has been live patched",
  "auxiliary taint, defined for and used by distros",
  "kernel was built with the struct randomization plugin"
]

/-- Binary digits of `n`, least-significant first, as the characters
Python's `format(n, "b")` would produce (reversed).  The first argument is
fuel; `n` itself is always enough fuel since the value halves at every
step. -/
def binDigitsAux : Nat → Nat → List Char
  | _, 0 => []
  | 0, _ + 1 => []
  | fuel + 1, n + 1 =>
      (if (n + 1) % 2 = 1 then '1' else '0') :: binDigitsAux fuel ((n + 1) / 2)

/-- Binary digits of `n`, least-significant first. -/
def binDigitsLSB (n : Nat) : List Char := binDigitsAux n n

/-- Python `format(code, "b")`: binary digits, most-significant first,
`"0"` for zero. -/
def formatBinary (code : Nat) : List Char :=
  if code = 0 then ['0'] else (binDigitsLSB code).reverse

/-- `format(code, f"0{width}b")[::-1]` from `SUT.get_tainted_info`: the
binary representation zero-padded on the left to `width` characters, then
reversed, so that index `i` holds the character for bit `i`. -/
def bitsString (width : Nat) (code : Nat) : List Char :=
  (List.replicate (width - (formatBinary code).length) '0'
    ++ formatBinary code).reverse

/-- The decoding loop of `SUT.get_tainted_info`: for every index `i` below
the table length, append `TAINTED_MSG[i]` when character `i` of the
reversed padded binary string is `'1'`. -/
def get_tainted_messages (code : Nat) : List String :=
  (List.range TAINTED_MSG.length).foldl
    (fun acc i =>
      if (bitsString TAINTED_MSG.length code).getD i '0' == '1' then
        acc ++ [TAINTED_MSG.getD i ""]
      else acc)
    []

/-- Python `str.strip`: remove leading and trailing whitespace. -/
def pyStrip (s : String) : String :=
  String.mk (((s.data.dropWhile Char.isWhitespace).reverse.dropWhile
    Char.isWhitespace).reverse)

/-- Python `str.isdigit` (restricted to ASCII digits, which is all the
kernel interface produces). -/
def pyIsDigit (s : String) : Bool :=
  !s.data.isEmpty && s.data.all Char.isDigit

/-- Python `int(s)` on a digit string. -/
def parseNat (s : String) : Nat :=
  s.data.foldl (fun acc c => acc * 10 + (c.toNat - 48)) 0

/-- Error family raised by SUT code (`libkirk/sut.py`): `KernelPanicError`
is a subtype of `SUTError`, and it carries no payload. -/
inductive SUTFailure where
  | sutError (msg : String)
  | kernelPanic
  | valueError (msg : String)
deriving DecidableEq

/-- `SUT.get_tainted_info` (`libkirk/sut.py`), given the `CmdResult` of
`cat /proc/sys/kernel/tainted`: fail on non-zero return code, strip the
output, fail if it is not a digit string, and otherwise decode the integer
against `TAINTED_MSG`. -/
def get_tainted_info (ret : CmdResult) : Except SUTFailure (Nat × List String) :=
  if ret.returncode ≠ 0 then
    .error (.sutError "Can't read tainted kernel information")
  else
    let code := pyStrip ret.stdout
    if ¬ pyIsDigit code then .error (.sutError code)
    else
      let n := parseNat code
      .ok (n, get_tainted_messages n)

/-! ## `libkirk/sut.py` — `ensure_communicate` -/

/-- Observable trace of one `SUT.ensure_communicate` call: how many times
`communicate` was attempted, how many times `stop` was called, and whether
the call succeeded (`success = false` means the last error was
re-raised). -/
structure CommTrace where
  commCalls : Nat
  stopCalls : Nat
  success : Bool
deriving DecidableEq

/-- The retry loop of `SUT.ensure_communicate`, over the list of outcomes
the successive `communicate` attempts would have (`true` = success).  On
success the loop breaks; on failure of the last allowed attempt the error
is re-raised; on failure of any earlier attempt `stop` is called and the
loop retries. -/
def ensure_loop : List Bool → CommTrace
  | [] => ⟨0, 0, false⟩
  | [a] => ⟨1, 0, a⟩
  | a :: b :: rest =>
      if a then ⟨1, 0, true⟩
      else
        let t := ensure_loop (b :: rest)
        ⟨t.commCalls + 1, t.stopCalls + 1, t.success⟩

/-- `SUT.ensure_communicate` (`libkirk/sut.py`): clamp `retries` to a
minimum of 1, then run the retry loop over that many attempts.  `att k`
tells whether the `k`-th `communicate` attempt would succeed. -/
def ensure_communicate (att : Nat → Bool) (retries : Int) : CommTrace :=
  ensure_loop ((List.range (max retries 1).toNat).map att)

/-! ## `libkirk/sut.py` — `get_info` -/

/-- `_run_cmd` inside `SUT.get_info`: a probe either timed out (`none`) or
produced a `CmdResult`; the stdout is kept (right-stripped) only on a zero
return code, and `"unknown"` is returned otherwise. -/
def run_cmd_info : Option CmdResult → String
  | none => "unknown"
  | some ret =>
      if ret.returncode = 0 then
        String.mk ((ret.stdout.data.reverse.dropWhile Char.isWhitespace).reverse)
      else "unknown"

/-- Matcher for the regex group `\d+\s+kB` at the start of a character
list (greedy, as the Python regex behaves on this pattern). -/
def matchMemGroup (l : List Char) : Option (List Char) :=
  let ds := l.takeWhile Char.isDigit
  let r1 := l.dropWhile Char.isDigit
  let ws := r1.takeWhile Char.isWhitespace
  let r2 := r1.dropWhile Char.isWhitespace
  if ds.isEmpty || ws.isEmpty then none
  else if ['k', 'B'].isPrefixOf r2 then some (ds ++ ws ++ ['k', 'B'])
  else none

/-- Attempt the whole pattern `<label>\s+(\d+\s+kB)` at the start of
`l`, returning the captured group. -/
def matchMemAt (label : List Char) (l : List Char) : Option (List Char) :=
  if label.isPrefixOf l then
    let r := l.drop label.length
    let ws := r.takeWhile Char.isWhitespace
    let r2 := r.dropWhile Char.isWhitespace
    if ws.isEmpty then none else matchMemGroup r2
  else none

/-- `re.search` for the pattern `<label>\s+(\d+\s+kB)`: try every
position left to right. -/
def searchMem (label : List Char) : List Char → Option (List Char)
  | [] => matchMemAt label []
  | c :: t =>
      match matchMemAt label (c :: t) with
      | some g => some g
      | none => searchMem label t

/-- `SUT.get_info` (`libkirk/sut.py`), given the outcomes of its six
parallel probes (distro id, distro version, kernel, arch, cpu, meminfo;
`none` = probe timed out).  Note the source initialises the swap default
to the literal string `"unkown"`. -/
def get_info (pDistro pVer pKernel pArch pCpu pMem : Option CmdResult) : SutInfo :=
  let distro := run_cmd_info pDistro
  let distro_ver := run_cmd_info pVer
  let kernel := run_cmd_info pKernel
  let arch := run_cmd_info pArch
  let cpu := run_cmd_info pCpu
  let meminfo := run_cmd_info pMem
  let memory :=
    if meminfo ≠ "" then
      match searchMem "MemTotal:".data meminfo.data with
      | some m => String.mk m
      | none => "unknown"
    else "unknown"
  let swap :=
    if meminfo ≠ "" then
      match searchMem "SwapTotal:".data meminfo.data with
      | some m => String.mk m
      | none => "unkown"
    else "unkown"
  { distro := distro, distro_ver := distro_ver, kernel := kernel,
    arch := arch, cpu := cpu, ram := memory, swap := swap }

/-! ## `libkirk/host.py` — `HostSUT.run_command`

The streaming read loop is embedded over the list of chunks the
subprocess pipe delivers (each at most `BUFFSIZE` bytes).  The panic flag
is reassigned on every iteration from the tail window of the accumulated
output, exactly as in the source. -/

/-- `HostSUT.BUFFSIZE` from `libkirk/host.py`. -/
def BUFFSIZE : Nat := 1024

/-- The kernel-panic marker string scanned for by `HostSUT.run_command`. -/
def panicMarker : List Char :=
  ['K', 'e', 'r', 'n', 'e', 'l', ' ', 'p', 'a', 'n', 'i', 'c']

/-- Python `stdout[-2*BUFFSIZE:]`: the last `2 * BUFFSIZE` characters of
the accumulated output. -/
def tailWindow (l : List Char) : List Char := l.drop (l.length - 2 * BUFFSIZE)

/-- Python substring containment `needle in hay`. -/
def containsSub (needle : List Char) : List Char → Bool
  | [] => needle.isEmpty
  | c :: t => needle.isPrefixOf (c :: t) || containsSub needle t

/-- The `while True` read loop of `HostSUT.run_command`: append each
chunk to the accumulated stdout and reassign the panic flag from the tail
window; the loop ends when the process dies (modelled as chunk
exhaustion), and the panic flag then holds its last assigned value. -/
def readLoop : List Char → Bool → List (List Char) → List Char × Bool
  | stdout, panic, [] => (stdout, panic)
  | stdout, _, chunk :: rest =>
      let out := stdout ++ chunk
      readLoop out (containsSub panicMarker (tailWindow out)) rest

/-- Outcome of `HostSUT.run_command`: whether the `finally` block killed
the spawned process (group), and either the `CmdResult` or the raised
error. -/
structure RunCommandOut where
  killed : Bool
  ret : Except SUTFailure CmdResult

/-- `HostSUT.run_command` (`libkirk/host.py`): reject an empty command
(`ValueError`), reject a non-running SUT (`SUTError`) — both before any
process is spawned — then stream the output chunks; the `finally` block
always kills the process group; if the final panic flag is set the call
raises the payload-free `KernelPanicError` instead of returning the
command data. -/
def hostRunCommand (running : Bool) (command : String)
    (chunks : List (List Char)) (rc : Int) (t : Nat) : RunCommandOut :=
  if command = "" then ⟨false, .error (.valueError "command is empty")⟩
  else if !running then ⟨false, .error (.sutError "SUT is not running")⟩
  else
    let res := readLoop [] false chunks
    if res.2 then ⟨true, .error .kernelPanic⟩
    else ⟨true, .ok ⟨command, String.mk res.1, rc, t⟩⟩

/-! ## `libkirk/scheduler.py` — `TestScheduler._run_test`

The per-test routine is embedded with its environment (the outcome of the
`run_command` call, the two taint probes, the ping reply time and the
stdout the `RedirectTestStdout` buffer accumulated) as explicit inputs,
and the framework's `read_result` as an oracle function. -/

/-- Status constants of `TestScheduler` (`libkirk/scheduler.py`). -/
def STATUS_OK : Nat := 0

/-- `TestScheduler.TEST_TIMEOUT`. -/
def TEST_TIMEOUT : Nat := 1

/-- `TestScheduler.KERNEL_PANIC`. -/
def KERNEL_PANIC : Nat := 2

/-- `TestScheduler.KERNEL_TAINTED`. -/
def KERNEL_TAINTED : Nat := 3

/-- `TestScheduler.KERNEL_TIMEOUT`. -/
def KERNEL_TIMEOUT : Nat := 4

/-- The bound (seconds) on the health `ping` attempted after a test
timeout (`asyncio.wait_for(self._sut.ping(), timeout=10)`). -/
def PING_TIMEOUT_BOUND : Nat := 10

/-- How the awaited `run_command` call inside `_run_test` ended: it
returned data, it raised `KernelPanicError`, or it exceeded the
configured timeout (`asyncio.TimeoutError`). -/
inductive CmdOutcome where
  | ok (data : CmdResult)
  | panic
  | timedOut
deriving DecidableEq

/-- Environment of one `_run_test` attempt. -/
structure TestEnv where
  /-- the scheduler's stop flag at entry -/
  stop : Bool
  /-- taint bitmask read before execution -/
  tainted1 : Nat
  /-- taint bitmask read after execution -/
  tainted2 : Nat
  /-- how the command execution ended -/
  outcome : CmdOutcome
  /-- seconds the health ping would need to reply -/
  pingTime : Nat
  /-- stdout accumulated by the `RedirectTestStdout` buffer -/
  iobufStdout : String
  /-- wall-clock time measured on the exception paths -/
  elapsed : Nat
deriving DecidableEq

/-- The kernel-class errors `_run_test` can raise after recording the
result: `KernelTaintedError`, `KernelPanicError`, `KernelTimeoutError`. -/
inductive KernelErrorKind where
  | tainted
  | panic
  | timedOut
deriving DecidableEq

/-- Observable outcome of one `_run_test` call. -/
structure RunTestOut where
  /-- false when the attempt was skipped because a stop was requested -/
  started : Bool
  /-- the attempt's final status classification -/
  status : Nat
  /-- the `TestResults` appended to `self._results`, if any -/
  appended : Option TestResults
  /-- the kernel-class error raised after recording, if any -/
  raised : Option KernelErrorKind
  /-- whether the bounded health ping was attempted -/
  pingAttempted : Bool
deriving DecidableEq

/-- `TestScheduler._run_test` (`libkirk/scheduler.py`).  `fw` is the
framework's `read_result(test, stdout, returncode, exec_time)`.  The
attempt is skipped when a stop was requested; otherwise the command
outcome is classified, a synthetic `returncode = -1` record replaces the
command data for every status other than `STATUS_OK`/`KERNEL_TAINTED`,
the framework result is appended, and only then is the kernel-class
error (if any) raised. -/
def run_test (fw : Test → String → Int → Nat → TestResults)
    (env : TestEnv) (test : Test) : RunTestOut :=
  if env.stop then
    { started := false, status := STATUS_OK, appended := none,
      raised := none, pingAttempted := false }
  else
    let status :=
      match env.outcome with
      | .ok _ => if env.tainted2 ≠ env.tainted1 then KERNEL_TAINTED else STATUS_OK
      | .panic => KERNEL_PANIC
      | .timedOut =>
          if env.pingTime > PING_TIMEOUT_BOUND then KERNEL_TIMEOUT
          else TEST_TIMEOUT
    let test_data : Option CmdResult :=
      match env.outcome with
      | .ok d => some d
      | _ => none
    let exec_time : Nat :=
      match env.outcome with
      | .ok _ => 0
      | _ => env.elapsed
    let data : CmdResult :=
      if status ≠ STATUS_OK ∧ status ≠ KERNEL_TAINTED then
        { command := test.full_command, stdout := env.iobufStdout,
          returncode := -1, exec_time := exec_time }
      else test_data.getD { command := "", stdout := "", returncode := 0, exec_time := 0 }
    let results := fw test data.stdout data.returncode data.exec_time
    { started := true
      status := status
      appended := some results
      raised :=
        if status = KERNEL_TAINTED then some .tainted
        else if status = KERNEL_PANIC then some .panic
        else if status = KERNEL_TIMEOUT then some .timedOut
        else none
      pingAttempted :=
        match env.outcome with
        | .timedOut => true
        | _ => false }

/-! ## `libkirk/scheduler.py` — `SuiteScheduler._run_suite`

The reboot-and-resume loop is embedded as state passing over an oracle
trace: each trace element describes one `self._scheduler.schedule` call
— how it ended and which `TestResults` the inner scheduler collected
(`self._scheduler.results`, extended into `tests_results` by the inner
`finally`). -/

/-- How one inner `schedule(tests_left)` call ended. -/
inductive SchedOutcome where
  /-- `schedule` returned normally -/
  | normal
  /-- `asyncio.TimeoutError`: the suite-wide timeout expired -/
  | timedOut
  /-- a kernel-class error was caught and `_restart_sut` succeeded -/
  | kernelError
  /-- a kernel-class error was caught and `_restart_sut` itself raised
  (for example `SUTError` from `ensure_communicate`) -/
  | fatal
deriving DecidableEq

/-- One iteration of the suite loop: the outcome of the inner `schedule`
call and the inner scheduler's collected results. -/
structure IterSpec where
  outcome : SchedOutcome
  res : List TestResults
deriving DecidableEq

/-- Loop state of `_run_suite`: the accumulated `tests_results` and the
outstanding `tests_left`. -/
structure LoopState where
  tests_results : List TestResults
  tests_left : List Test
deriving DecidableEq

/-- The inner membership scan of `_run_suite`: is there a recorded result
whose test name equals `t.name`? -/
def containsName (results : List TestResults) (t : Test) : Bool :=
  results.any (fun r => r.testName == t.name)

/-- The `tests_left` recomputation of `_run_suite`: the suite's tests in
order, keeping those with no recorded result of the same name. -/
def recompute (suiteTests : List Test) (results : List TestResults) : List Test :=
  suiteTests.filter (fun t => !containsName results t)

/-- The synthetic result `_run_suite` appends for each outstanding test
after a suite-wide timeout: all counts zero except `skipped = 1`, return
code 32, empty stdout, zero duration. -/
def syntheticSkipped (t : Test) : TestResults :=
  { testName := t.name, passed := 0, failed := 0, broken := 0,
    skipped := 1, warnings := 0, retcode := 32, exec_time := 0, stdout := "" }

/-- How the suite loop ended. -/
inductive LoopResult where
  /-- the loop ended with these accumulated `tests_results` -/
  | completed (tests_results : List TestResults)
  /-- an external stop was observed at the loop head -/
  | stoppedEarly (tests_results : List TestResults)
  /-- an unrecoverable error escaped the loop with these accumulated
  `tests_results` (the outer `finally` still runs) -/
  | fatal (tests_results : List TestResults)
  /-- model artifact: the oracle trace was exhausted while tests remain;
  a long enough trace always avoids this, since any execution performs
  finitely many iterations -/
  | outOfTrace (st : LoopState)
deriving DecidableEq

/-- The `while not self._stop and tests_left` loop of
`SuiteScheduler._run_suite`.  `stop k` is the stop flag observed at the
head of iteration `k`.  Each iteration extends `tests_results` with the
inner scheduler's results (the inner `finally`), then recomputes
`tests_left`; on a suite timeout every outstanding test receives a
synthetic skipped result and the loop breaks. -/
def suite_loop (suiteTests : List Test) (stop : Nat → Bool) :
    LoopState → Nat → List IterSpec → LoopResult
  | st, k, [] =>
    if stop k then .stoppedEarly st.tests_results
    else if st.tests_left.isEmpty then .completed st.tests_results
    else .outOfTrace st
  | st, k, iter :: rest =>
    if stop k then .stoppedEarly st.tests_results
    else if st.tests_left.isEmpty then .completed st.tests_results
    else
      let results2 := st.tests_results ++ iter.res
      match iter.outcome with
      | .fatal => .fatal results2
      | .timedOut =>
          let left2 := recompute suiteTests results2
          .completed (results2 ++ left2.map syntheticSkipped)
      | _ =>
          let left2 := recompute suiteTests results2
          suite_loop suiteTests stop ⟨results2, left2⟩ (k + 1) rest

/-- Observable outcome of one `_run_suite` call. -/
structure RunSuiteOut where
  /-- the `SuiteResults` appended to `self._results` by the outer
  `finally` -/
  suiteResultsAppended : List SuiteResults
  /-- whether the `suite_completed` event was fired -/
  firedSuiteCompleted : Bool
  /-- whether an unrecoverable error propagated to the caller -/
  raised : Bool
deriving DecidableEq

/-- The `SuiteResults` constructed by the outer `finally` of
`_run_suite` from the accumulated results and the snapshotted SUT
info. -/
def build_suite_results (suite : Suite) (info : SutInfo)
    (tests_results : List TestResults) : SuiteResults :=
  { suiteName := suite.name, tests := tests_results,
    distro := info.distro, distro_ver := info.distro_ver,
    kernel := info.kernel, arch := info.arch, cpu := info.cpu,
    swap := info.swap, ram := info.ram }

/-- `SuiteScheduler._run_suite` (`libkirk/scheduler.py`): run the suite
loop from the initial state (no results, all tests outstanding); the
outer `try/finally` builds the `SuiteResults`, fires `suite_completed`
and appends it to `self._results` on every exit path, re-raising the
escaped error afterwards when the loop ended fatally. -/
def run_suite (suite : Suite) (info : SutInfo) (stop : Nat → Bool)
    (trace : List IterSpec) : RunSuiteOut :=
  match suite_loop suite.tests stop ⟨[], suite.tests⟩ 0 trace with
  | .completed r => ⟨[build_suite_results suite info r], true, false⟩
  | .stoppedEarly r => ⟨[build_suite_results suite info r], true, false⟩
  | .fatal r => ⟨[build_suite_results suite info r], true, true⟩
  | .outOfTrace st => ⟨[build_suite_results suite info st.tests_results], true, false⟩

/-! ## Auxiliary definitions used by the theorems -/

/-- Names of a list of recorded results. -/
def resNames (results : List TestResults) : List String :=
  results.map TestResults.testName

/-- Names of a list of tests. -/
def testNames (tests : List Test) : List String :=
  tests.map Test.name

/-- What the inner `TestScheduler` guarantees about the results one
`schedule(tests_left)` call collects: one result per distinct test, and
only for tests of the outstanding set (each `_run_test` call appends one
result for its own test, see `run_test`). -/
def ValidRes (left : List Test) (res : List TestResults) : Prop :=
  (resNames res).Nodup ∧ ∀ r ∈ res, r.testName ∈ testNames left

/-- An oracle trace is valid when every iteration's collected results
satisfy `ValidRes` for the outstanding set the loop would hand to the
inner scheduler at that iteration. -/
def ValidTrace (suiteTests : List Test) : LoopState → List IterSpec → Prop
  | _, [] => True
  | st, iter :: rest =>
      ValidRes st.tests_left iter.res ∧
      ValidTrace suiteTests
        ⟨st.tests_results ++ iter.res,
         recompute suiteTests (st.tests_results ++ iter.res)⟩ rest

/-- A concrete result interpreter used to instantiate the framework
oracle in witnesses: it records the test name, the return code, the
duration and the stdout it is given. -/
def fwSimple : Test → String → Int → Nat → TestResults :=
  fun t s rc et => ⟨t.name, 0, 0, 0, 0, 0, rc, et, s⟩

/-! ## Theorems -/

theorem binDigitsAux_getD (i : Nat) : ∀ fuel n, n ≤ fuel →
    (binDigitsAux fuel n).getD i '0' = (if n.testBit i then '1' else '0') := by
  induction i with
  | zero =>
    intro fuel n hn
    match fuel, n with
    | _, 0 => simp [binDigitsAux]
    | 0, n + 1 => omega
    | fuel + 1, n + 1 =>
      simp only [binDigitsAux, List.getD_cons_zero, Nat.testBit_zero]
      by_cases h : (n + 1) % 2 = 1 <;> simp [h]
  | succ i ih =>
    intro fuel n hn
    match fuel, n with
    | _, 0 => simp [binDigitsAux]
    | 0, n + 1 => omega
    | fuel + 1, n + 1 =>
      simp only [binDigitsAux, List.getD_cons_succ]
      rw [ih fuel ((n + 1) / 2) (by omega), Nat.testBit_succ]

theorem formatBinary_reverse_getD (code i : Nat) :
    (formatBinary code).reverse.getD i '0' = (if code.testBit i then '1' else '0') := by
  unfold formatBinary
  by_cases h : code = 0
  · subst h
    simp only [if_pos rfl, Nat.zero_testBit, if_false]
    cases i <;> simp
  · rw [if_neg h, List.reverse_reverse]
    exact binDigitsAux_getD i code code le_rfl

theorem getD_replicate_zero (m i : Nat) :
    (List.replicate m '0').getD i '0' = '0' := by
  rcases lt_or_ge i m with h | h
  · rw [List.getD_eq_getElem?_getD]
    simp [List.getElem?_replicate, h]
  · exact List.getD_eq_default _ _ (by simpa using h)

theorem getD_append_replicate_zero (l : List Char) (m i : Nat) :
    (l ++ List.replicate m '0').getD i '0' = l.getD i '0' := by
  rcases lt_or_ge i l.length with h | h
  · exact List.getD_append _ _ _ _ h
  · rw [List.getD_append_right _ _ _ _ h, List.getD_eq_default _ _ h,
      getD_replicate_zero]

theorem bitsString_getD (w code i : Nat) :
    (bitsString w code).getD i '0' = (if code.testBit i then '1' else '0') := by
  unfold bitsString
  rw [List.reverse_append, List.reverse_replicate, getD_append_replicate_zero,
    formatBinary_reverse_getD]

theorem foldl_if_append (p : Nat → Bool) (f : Nat → String) (l : List Nat) :
    ∀ init, l.foldl (fun acc i => if p i then acc ++ [f i] else acc) init
      = init ++ (l.filter p).map f := by
  induction l with
  | nil => intro init; simp
  | cons a t ih =>
    intro init
    by_cases h : p a <;> simp [List.foldl_cons, h, List.filter_cons, ih]

/-- Claim C5: `get_tainted_info` decodes the integer read from the SUT as
a bit-vector against the fixed ordered taint-reason table, bit `i`
mapping to reason `i`, reasons returned in increasing index order (the
filtered index list is increasing); in particular, reading `"5\n"`
decodes to exactly the reasons at index 0 and index 2, in that order. -/
theorem C5_tainted_decoding :
    (∀ code : Nat, get_tainted_messages code =
        ((List.range TAINTED_MSG.length).filter (fun i => code.testBit i)).map
          (fun i => TAINTED_MSG.getD i "")) ∧
    get_tainted_info ⟨"cat /proc/sys/kernel/tainted", "5\n", 0, 0⟩ =
      .ok (5, [TAINTED_MSG.getD 0 "", TAINTED_MSG.getD 2 ""]) := by
  constructor
  · intro code
    unfold get_tainted_messages
    have hp : (fun i => (bitsString TAINTED_MSG.length code).getD i '0' == '1')
        = (fun i => code.testBit i) := by
      funext i
      rw [bitsString_getD]
      by_cases h : code.testBit i <;> simp [h]
    rw [foldl_if_append (fun i => (bitsString TAINTED_MSG.length code).getD i '0' == '1')
      (fun i => TAINTED_MSG.getD i "") (List.range TAINTED_MSG.length) [], hp]
    simp
  · rfl

theorem ensure_loop_comm_le (L : List Bool) : (ensure_loop L).commCalls ≤ L.length := by
  induction L with
  | nil => simp [ensure_loop]
  | cons a t ih =>
    cases t with
    | nil => simp [ensure_loop]
    | cons b r =>
      simp only [ensure_loop]
      split
      · simp
      · simpa using Nat.succ_le_succ ih

theorem ensure_loop_all_false (L : List Bool) (hne : L ≠ [])
    (h : ∀ b ∈ L, b = false) : ensure_loop L = ⟨L.length, L.length - 1, false⟩ := by
  induction L with
  | nil => exact absurd rfl hne
  | cons a t ih =>
    have ha : a = false := h a (by simp)
    cases t with
    | nil => simp [ensure_loop, ha]
    | cons b r =>
      have ht := ih (by simp) (fun x hx => h x (by simp [hx]))
      simp [ensure_loop, ha, ht]

theorem ensure_loop_first_success (F rest : List Bool) (h : ∀ b ∈ F, b = false) :
    ensure_loop (F ++ true :: rest) = ⟨F.length + 1, F.length, true⟩ := by
  induction F with
  | nil =>
    cases rest with
    | nil => simp [ensure_loop]
    | cons b r => simp [ensure_loop]
  | cons a t ih =>
    have ha : a = false := h a (by simp)
    have ht := ih (fun x hx => h x (by simp [hx]))
    obtain ⟨b, r, hbr⟩ : ∃ b r, t ++ true :: rest = b :: r := by
      cases t with
      | nil => exact ⟨true, rest, rfl⟩
      | cons x xs => exact ⟨x, xs ++ true :: rest, by simp⟩
    rw [List.cons_append, hbr, ensure_loop, ← hbr, ht]
    simp [ha]

/-- Claim C6: for every `retries = n ≥ 1`, `ensure_communicate` attempts
`communicate` at most `n` times; when the first success is attempt `i`
it stops there having called `stop` exactly `i` times (once after each
failed attempt); when all `n` attempts fail it re-raises the last error
(`success = false`) after `n` attempts and `n - 1` stops — so the error
is re-raised only after all attempts failed, and `stop` is never called
after the last attempt. -/
theorem C6_ensure_communicate_retries (att : Nat → Bool) (n : Int) (h : 1 ≤ n) :
    ((ensure_communicate att n).commCalls ≤ n.toNat) ∧
    (∀ i : Nat, (i : Int) < n → att i = true → (∀ j, j < i → att j = false) →
        ensure_communicate att n = ⟨i + 1, i, true⟩) ∧
    ((∀ i : Nat, (i : Int) < n → att i = false) →
        ensure_communicate att n = ⟨n.toNat, n.toNat - 1, false⟩) := by
  have hmax : max n 1 = n := max_eq_left h
  refine ⟨?_, ?_, ?_⟩
  · have := ensure_loop_comm_le ((List.range (max n 1).toNat).map att)
    simpa [ensure_communicate, hmax] using this
  · intro i hi hti hfj
    have hilt : i < n.toNat := by omega
    have hsplit : List.range n.toNat = List.range i ++ (List.range (n.toNat - i)).map (i + ·) := by
      rw [← List.range_add]
      congr 1
      omega
    obtain ⟨k, hk⟩ : ∃ k, n.toNat - i = k + 1 := ⟨n.toNat - i - 1, by omega⟩
    rw [ensure_communicate, hmax, hsplit, hk, List.range_succ_eq_map]
    simp only [List.map_append, List.map_cons, List.map_map]
    have hhead : (i + ·) 0 = i := by simp
    rw [show att ((i + ·) 0) = true by simpa using hti]
    rw [ensure_loop_first_success _ _ (by
      intro b hb
      simp only [List.mem_map, List.mem_range] at hb
      obtain ⟨j, hj, rfl⟩ := hb
      exact hfj j hj)]
    simp
  · intro hall
    have hne : (List.range n.toNat).map att ≠ [] := by
      simp only [ne_eq, List.map_eq_nil_iff, List.range_eq_nil]
      omega
    rw [ensure_communicate, hmax,
      ensure_loop_all_false _ hne (by
        intro b hb
        simp only [List.mem_map, List.mem_range] at hb
        obtain ⟨j, hj, rfl⟩ := hb
        exact hall j (by omega))]
    simp

/-- Witness for C6: `retries = 3` with a `communicate` stub that fails
twice then succeeds calls `stop` exactly twice and succeeds on the third
`communicate` attempt. -/
theorem C6_witness :
    (1 : Int) ≤ 3 ∧
    ensure_communicate (fun k => decide (2 ≤ k)) 3 = ⟨3, 2, true⟩ := by
  refine ⟨by norm_num, ?_⟩
  exact (C6_ensure_communicate_retries (fun k => decide (2 ≤ k)) 3 (by norm_num)).2.1 2
    (by norm_num) (by decide) (by decide)

/-- Claim C10: `ensure_communicate` with `retries ≤ 0` still attempts
`communicate` exactly once (the retry count is clamped to 1); on failure
of that single attempt the error is re-raised with no intervening `stop`
call. -/
theorem C10_nonpositive_retries_single_attempt (att : Nat → Bool) (n : Int)
    (h : n ≤ 0) : ensure_communicate att n = ⟨1, 0, att 0⟩ := by
  have hmax : max n 1 = 1 := max_eq_right (by omega)
  simp [ensure_communicate, hmax, ensure_loop]

/-- Witness for C10: `retries = -2` with an always-failing `communicate`
performs one attempt, zero stops, and re-raises. -/
theorem C10_witness :
    (-2 : Int) ≤ 0 ∧ ensure_communicate (fun _ => false) (-2) = ⟨1, 0, false⟩ :=
  ⟨by norm_num, C10_nonpositive_retries_single_attempt (fun _ => false) (-2) (by norm_num)⟩

/-- Claim C4 (code bug): when every probe of `get_info` fails or times
out, six of the seven fields are `"unknown"`, but the swap field is the
misspelled literal `"unkown"` (the source initialises
`swap = "unkown"`), which differs from the `"unknown"` the claim and the
spec state. -/
theorem C4_swap_probe_failure_typo :
    (get_info none none none none none none).distro = "unknown" ∧
    (get_info none none none none none none).distro_ver = "unknown" ∧
    (get_info none none none none none none).kernel = "unknown" ∧
    (get_info none none none none none none).arch = "unknown" ∧
    (get_info none none none none none none).cpu = "unknown" ∧
    (get_info none none none none none none).ram = "unknown" ∧
    (get_info none none none none none none).swap = "unkown" ∧
    "unkown" ≠ "unknown" := by
  refine ⟨rfl, rfl, rfl, rfl, rfl, rfl, rfl, by decide⟩

/-- Claim C1: every `_run_test` attempt that is not skipped due to a
requested stop appends a `TestResults` built from the captured output —
the command's own data on the OK/tainted paths, a synthetic
`returncode = -1` record from the streamed buffer on the panic/timeout
paths — and whenever a kernel-class error is raised the result has
already been appended (in the output record, `raised` is populated only
together with `appended`): no attempt that started execution ends
without an appended result. -/
theorem C1_run_test_always_records_result
    (fw : Test → String → Int → Nat → TestResults) (env : TestEnv) (test : Test)
    (h : env.stop = false) :
    (run_test fw env test).started = true ∧
    (run_test fw env test).appended.isSome = true ∧
    (∀ e, (run_test fw env test).raised = some e →
        (run_test fw env test).appended.isSome = true) ∧
    (match env.outcome with
     | .ok d => (run_test fw env test).appended =
         some (fw test d.stdout d.returncode d.exec_time)
     | .panic => (run_test fw env test).appended =
         some (fw test env.iobufStdout (-1) env.elapsed)
     | .timedOut => (run_test fw env test).appended =
         some (fw test env.iobufStdout (-1) env.elapsed)) := by
  cases hout : env.outcome with
  | ok d =>
    by_cases ht : env.tainted2 = env.tainted1 <;>
      simp [run_test, h, hout, ht, STATUS_OK, KERNEL_TAINTED, KERNEL_PANIC,
        KERNEL_TIMEOUT, TEST_TIMEOUT]
  | panic =>
    simp [run_test, h, hout, STATUS_OK, KERNEL_TAINTED, KERNEL_PANIC,
      KERNEL_TIMEOUT, TEST_TIMEOUT]
  | timedOut =>
    by_cases hp : env.pingTime > PING_TIMEOUT_BOUND <;>
      simp [run_test, h, hout, hp, STATUS_OK, KERNEL_TAINTED, KERNEL_PANIC,
        KERNEL_TIMEOUT, TEST_TIMEOUT]

/-- Witness for C1: a concrete kernel-panic attempt still appends a
result. -/
theorem C1_witness :
    (TestEnv.mk false 0 0 .panic 0 "streamed output" 7).stop = false ∧
    (run_test fwSimple (TestEnv.mk false 0 0 .panic 0 "streamed output" 7)
      (Test.mk "t01" "t01 -a" true)).appended.isSome = true :=
  ⟨rfl, (C1_run_test_always_records_result fwSimple
    (TestEnv.mk false 0 0 .panic 0 "streamed output" 7)
    (Test.mk "t01" "t01 -a" true) rfl).2.1⟩

/-- Claim C7: in `_run_test`, a command timeout leads to a bounded
(10-second) ping attempt and classification `TEST_TIMEOUT`, reclassified
`KERNEL_TIMEOUT` exactly when the ping also times out; a
`KernelPanicError` from the command classifies the attempt
`KERNEL_PANIC`; the ping is attempted only on the timeout path. -/
theorem C7_timeout_and_panic_classification
    (fw : Test → String → Int → Nat → TestResults) (env : TestEnv) (test : Test)
    (h : env.stop = false) :
    (env.outcome = .timedOut →
      (run_test fw env test).pingAttempted = true ∧
      PING_TIMEOUT_BOUND = 10 ∧
      ((run_test fw env test).status = KERNEL_TIMEOUT ↔
        PING_TIMEOUT_BOUND < env.pingTime) ∧
      (env.pingTime ≤ PING_TIMEOUT_BOUND →
        (run_test fw env test).status = TEST_TIMEOUT)) ∧
    (env.outcome = .panic → (run_test fw env test).status = KERNEL_PANIC) ∧
    ((run_test fw env test).pingAttempted = true → env.outcome = .timedOut) := by
  refine ⟨?_, ?_, ?_⟩
  · intro hout
    by_cases hp : env.pingTime > PING_TIMEOUT_BOUND <;>
      simp [run_test, h, hout, hp, STATUS_OK, KERNEL_TAINTED, KERNEL_PANIC,
        KERNEL_TIMEOUT, TEST_TIMEOUT, PING_TIMEOUT_BOUND]
  · intro hout
    simp [run_test, h, hout, KERNEL_PANIC]
  · intro hping
    cases hout : env.outcome with
    | ok d => simp [run_test, h, hout] at hping
    | panic => simp [run_test, h, hout] at hping
    | timedOut => rfl

/-- Witness for C7: a timed-out command whose follow-up ping needs 20
seconds (beyond the 10-second bound) is classified `KERNEL_TIMEOUT`. -/
theorem C7_witness :
    (TestEnv.mk false 0 0 .timedOut 20 "" 5).stop = false ∧
    (run_test fwSimple (TestEnv.mk false 0 0 .timedOut 20 "" 5)
      (Test.mk "t02" "t02" false)).status = KERNEL_TIMEOUT :=
  ⟨rfl, (((C7_timeout_and_panic_classification fwSimple
      (TestEnv.mk false 0 0 .timedOut 20 "" 5)
      (Test.mk "t02" "t02" false) rfl).1 rfl).2.2.1).mpr (by decide)⟩

theorem isPrefixOf_append_self (l t : List Char) : l.isPrefixOf (l ++ t) = true := by
  induction l with
  | nil => simp [List.isPrefixOf]
  | cons a as ih => simp [List.isPrefixOf, ih]

theorem containsSub_append_left (n t : List Char) (hn : n ≠ []) :
    containsSub n (n ++ t) = true := by
  cases n with
  | nil => exact absurd rfl hn
  | cons a as =>
    rw [List.cons_append, containsSub]
    have h1 := isPrefixOf_append_self (a :: as) t
    rw [List.cons_append] at h1
    rw [h1, Bool.true_or]

theorem containsSub_replicate_a (n : Nat) :
    containsSub panicMarker (List.replicate n 'a') = false := by
  induction n with
  | zero => rfl
  | succ m ih =>
    rw [List.replicate_succ, containsSub, ih]
    simp [panicMarker, List.isPrefixOf]

theorem readLoop_flatten (chunks : List (List Char)) : chunks ≠ [] →
    ∀ stdout panic, readLoop stdout panic chunks =
      (stdout ++ chunks.flatten,
       containsSub panicMarker (tailWindow (stdout ++ chunks.flatten))) := by
  induction chunks with
  | nil => intro hne; exact absurd rfl hne
  | cons c rest ih =>
    intro _ stdout panic
    cases rest with
    | nil => simp [readLoop]
    | cons d rs =>
      rw [readLoop, ih (by simp)]
      simp [List.append_assoc]

theorem tailWindow_marker_append :
    tailWindow (panicMarker ++ List.replicate 2048 'a') = List.replicate 2048 'a' := by
  have h : (panicMarker ++ List.replicate 2048 'a').length - 2 * BUFFSIZE
      = panicMarker.length := by
    rw [List.length_append, List.length_replicate,
      show panicMarker.length = 12 from rfl, show BUFFSIZE = 1024 from rfl]
  rw [tailWindow, h, List.drop_left]

/-- Claim C3 counterexample: a run whose streamed output contains the
kernel-panic marker does NOT necessarily fail with `KernelPanicError`.
The panic flag is reassigned on every read iteration from the last
`2 * BUFFSIZE` characters of the accumulated output, so a marker that is
followed by at least `2 * BUFFSIZE` further characters has scrolled out
of the window by the final iteration: the call returns normally. -/
theorem C3_counterexample :
    containsSub panicMarker ([panicMarker, List.replicate 2048 'a'].flatten) = true ∧
    hostRunCommand true "echo hello" [panicMarker, List.replicate 2048 'a'] 0 1 =
      ⟨true, .ok ⟨"echo hello",
        String.mk (panicMarker ++ List.replicate 2048 'a'), 0, 1⟩⟩ := by
  have hflat : [panicMarker, List.replicate 2048 'a'].flatten
      = panicMarker ++ List.replicate 2048 'a' := by
    rw [List.flatten_cons, List.flatten_cons, List.flatten_nil, List.append_nil]
  constructor
  · rw [hflat]
    exact containsSub_append_left _ _ (by decide)
  · have hloop : readLoop [] false [panicMarker, List.replicate 2048 'a']
        = (panicMarker ++ List.replicate 2048 'a', false) := by
      rw [readLoop_flatten _ (List.cons_ne_nil _ _), List.nil_append, hflat,
        tailWindow_marker_append, containsSub_replicate_a]
    simp only [hostRunCommand, if_neg (show ¬("echo hello" = "") by decide), hloop]
    rfl

/-- Claim C3 (amended): for every `HostSUT.run_command` invocation whose
streamed output contains the kernel-panic marker within the final
`2 * BUFFSIZE` characters of the accumulated output, the call still
terminates the spawned process (the `finally` block kills the process
group) and then fails with `KernelPanicError` — a subtype of `SUTError`
whose constructor carries no output payload, so the streamed data is
available only through the optional sink. -/
theorem C3_panic_marker_in_tail_raises
    (command : String) (chunks : List (List Char)) (rc : Int) (t : Nat)
    (hcmd : command ≠ "")
    (hpanic : containsSub panicMarker (tailWindow chunks.flatten) = true) :
    hostRunCommand true command chunks rc t = ⟨true, .error .kernelPanic⟩ := by
  cases hc : chunks with
  | nil =>
    rw [hc] at hpanic
    exact absurd hpanic (by decide)
  | cons c rest =>
    subst hc
    have hloop : readLoop [] false (c :: rest) = ((c :: rest).flatten, true) := by
      rw [readLoop_flatten _ (List.cons_ne_nil _ _), List.nil_append, hpanic]
    simp only [hostRunCommand, if_neg hcmd, hloop]
    rfl

/-- Witness for the amended C3: a single chunk that is exactly the
marker lies inside the tail window, and the call raises
`KernelPanicError` after killing the process. -/
theorem C3_witness :
    ("sleep 1" ≠ "") ∧
    containsSub panicMarker (tailWindow ([panicMarker].flatten)) = true ∧
    hostRunCommand true "sleep 1" [panicMarker] 0 0 = ⟨true, .error .kernelPanic⟩ :=
  ⟨by decide, by decide,
    C3_panic_marker_in_tail_raises "sleep 1" [panicMarker] 0 0 (by decide) (by decide)⟩

theorem mem_recompute (suiteTests : List Test) (results : List TestResults) (t : Test) :
    t ∈ recompute suiteTests results ↔
      t ∈ suiteTests ∧ ∀ r ∈ results, r.testName ≠ t.name := by
  simp [recompute, List.mem_filter, containsName]

theorem mem_testNames_recompute (suiteTests : List Test) (results : List TestResults)
    (n : String) :
    n ∈ testNames (recompute suiteTests results) ↔
      n ∈ testNames suiteTests ∧ n ∉ resNames results := by
  simp only [testNames, List.mem_map, resNames]
  constructor
  · rintro ⟨t, ht, rfl⟩
    rw [mem_recompute] at ht
    refine ⟨⟨t, ht.1, rfl⟩, ?_⟩
    rintro ⟨r, hr, hrn⟩
    exact ht.2 r hr hrn
  · rintro ⟨⟨t, ht, rfl⟩, hn⟩
    refine ⟨t, ?_, rfl⟩
    rw [mem_recompute]
    exact ⟨ht, fun r hr he => hn ⟨r, hr, he⟩⟩

theorem testNames_recompute_nodup (suiteTests : List Test) (results : List TestResults)
    (hnd : (testNames suiteTests).Nodup) :
    (testNames (recompute suiteTests results)).Nodup :=
  List.Nodup.sublist ((List.filter_sublist _).map Test.name) hnd

theorem recompute_nil (suiteTests : List Test) : recompute suiteTests [] = suiteTests := by
  rw [recompute, List.filter_eq_self.mpr]
  intro a _
  simp [containsName]

theorem step_invariant (suiteTests : List Test) (results res : List TestResults)
    (h1 : (resNames results).Nodup)
    (h2 : ∀ r ∈ results, r.testName ∈ testNames suiteTests)
    (hv : ValidRes (recompute suiteTests results) res) :
    (resNames (results ++ res)).Nodup ∧
    ∀ r ∈ results ++ res, r.testName ∈ testNames suiteTests := by
  obtain ⟨hvn, hvm⟩ := hv
  constructor
  · simp only [resNames, List.map_append]
    refine List.Nodup.append h1 hvn ?_
    intro n hn1 hn2
    simp only [List.mem_map] at hn1 hn2
    obtain ⟨r2, hr2, rfl⟩ := hn2
    have hmem := hvm r2 hr2
    rw [mem_testNames_recompute] at hmem
    exact hmem.2 (by simpa [resNames, List.mem_map] using hn1)
  · intro r hr
    rcases List.mem_append.mp hr with h | h
    · exact h2 r h
    · have hmem := hvm r h
      rw [mem_testNames_recompute] at hmem
      exact hmem.1

theorem completed_empty_names (suiteTests : List Test) (results : List TestResults)
    (h2 : ∀ r ∈ results, r.testName ∈ testNames suiteTests)
    (hemp : recompute suiteTests results = []) :
    ∀ n, n ∈ resNames results ↔ n ∈ testNames suiteTests := by
  intro n
  constructor
  · intro hn
    simp only [resNames, List.mem_map] at hn
    obtain ⟨r, hr, rfl⟩ := hn
    exact h2 r hr
  · intro hn
    simp only [testNames, List.mem_map] at hn
    obtain ⟨t, ht, rfl⟩ := hn
    by_contra hnot
    have hmem : t ∈ recompute suiteTests results := by
      rw [mem_recompute]
      refine ⟨ht, fun r hr he => hnot ?_⟩
      simp only [resNames, List.mem_map]
      exact ⟨r, hr, he⟩
    rw [hemp] at hmem
    exact absurd hmem (List.not_mem_nil t)

theorem resNames_map_syntheticSkipped (l : List Test) :
    resNames (l.map syntheticSkipped) = testNames l := by
  simp only [resNames, testNames, List.map_map]
  rfl

theorem timeout_exit_names (suiteTests : List Test) (results2 : List TestResults)
    (hnd : (testNames suiteTests).Nodup)
    (h1 : (resNames results2).Nodup)
    (h2 : ∀ r ∈ results2, r.testName ∈ testNames suiteTests) :
    (resNames (results2 ++ (recompute suiteTests results2).map syntheticSkipped)).Nodup ∧
    ∀ n, n ∈ resNames (results2 ++ (recompute suiteTests results2).map syntheticSkipped)
        ↔ n ∈ testNames suiteTests := by
  constructor
  · simp only [resNames, List.map_append]
    refine List.Nodup.append h1 ?_ ?_
    · have := resNames_map_syntheticSkipped (recompute suiteTests results2)
      simp only [resNames] at this
      rw [this]
      exact testNames_recompute_nodup suiteTests results2 hnd
    · intro n hn1 hn2
      have := resNames_map_syntheticSkipped (recompute suiteTests results2)
      simp only [resNames] at this
      rw [this] at hn2
      rw [mem_testNames_recompute] at hn2
      exact hn2.2 (by simpa [resNames] using hn1)
  · intro n
    simp only [resNames, List.map_append, List.mem_append]
    have hsyn := resNames_map_syntheticSkipped (recompute suiteTests results2)
    simp only [resNames] at hsyn
    rw [hsyn]
    constructor
    · rintro (h | h)
      · obtain ⟨r, hr, rfl⟩ := List.mem_map.mp h
        exact h2 r hr
      · exact (mem_testNames_recompute suiteTests results2 n |>.mp h).1
    · intro hn
      by_cases hmem : n ∈ (results2.map TestResults.testName)
      · exact Or.inl hmem
      · refine Or.inr ?_
        rw [mem_testNames_recompute]
        exact ⟨hn, by simpa [resNames] using hmem⟩

theorem suite_loop_completed_names (suiteTests : List Test) (stop : Nat → Bool)
    (hnd : (testNames suiteTests).Nodup) :
    ∀ (trace : List IterSpec) (st : LoopState) (k : Nat) (R : List TestResults),
      (resNames st.tests_results).Nodup →
      (∀ r ∈ st.tests_results, r.testName ∈ testNames suiteTests) →
      st.tests_left = recompute suiteTests st.tests_results →
      ValidTrace suiteTests st trace →
      suite_loop suiteTests stop st k trace = .completed R →
      (resNames R).Nodup ∧ ∀ n, n ∈ resNames R ↔ n ∈ testNames suiteTests := by
  intro trace
  induction trace with
  | nil =>
    intro st k R h1 h2 h3 _ hc
    simp only [suite_loop] at hc
    split at hc
    · simp at hc
    · split at hc
      next he =>
        obtain rfl : st.tests_results = R := by
          injection hc
        refine ⟨h1, completed_empty_names suiteTests _ h2 ?_⟩
        rw [← h3]
        exact List.isEmpty_iff.mp he
      next he => simp at hc
  | cons iter rest ih =>
    intro st k R h1 h2 h3 hv hc
    obtain ⟨hvr, hvrest⟩ := hv
    rw [h3] at hvr
    have hstep := step_invariant suiteTests st.tests_results iter.res h1 h2 hvr
    simp only [suite_loop] at hc
    split at hc
    · simp at hc
    · split at hc
      next he =>
        obtain rfl : st.tests_results = R := by
          injection hc
        refine ⟨h1, completed_empty_names suiteTests _ h2 ?_⟩
        rw [← h3]
        exact List.isEmpty_iff.mp he
      next he =>
        cases ho : iter.outcome with
        | fatal =>
          simp only [ho] at hc
          exact LoopResult.noConfusion hc
        | timedOut =>
          simp only [ho] at hc
          obtain rfl : (st.tests_results ++ iter.res) ++
              (recompute suiteTests (st.tests_results ++ iter.res)).map syntheticSkipped
              = R := by injection hc
          exact timeout_exit_names suiteTests _ hnd hstep.1 hstep.2
        | normal =>
          simp only [ho] at hc
          exact ih ⟨st.tests_results ++ iter.res,
            recompute suiteTests (st.tests_results ++ iter.res)⟩
            (k + 1) R hstep.1 hstep.2 rfl hvrest hc
        | kernelError =>
          simp only [ho] at hc
          exact ih ⟨st.tests_results ++ iter.res,
            recompute suiteTests (st.tests_results ++ iter.res)⟩
            (k + 1) R hstep.1 hstep.2 rfl hvrest hc

/-- Claim C2: for every suite, when `schedule([S])`'s suite loop
completes without an external stop (over any valid inner-scheduler
trace, including kernel-error interruptions resumed after reboot), the
`SuiteResults` appended to the run's collection holds exactly one test
result per test name of the suite: the name collection is duplicate-free
and coincides with the suite's test names. -/
theorem C2_suite_results_one_per_test
    (suite : Suite) (info : SutInfo) (stop : Nat → Bool) (trace : List IterSpec)
    (R : List TestResults)
    (hnd : (testNames suite.tests).Nodup)
    (hv : ValidTrace suite.tests ⟨[], suite.tests⟩ trace)
    (hc : suite_loop suite.tests stop ⟨[], suite.tests⟩ 0 trace = .completed R) :
    (run_suite suite info stop trace).suiteResultsAppended =
      [build_suite_results suite info R] ∧
    (build_suite_results suite info R).tests = R ∧
    (resNames R).Nodup ∧
    (∀ n, n ∈ resNames R ↔ n ∈ testNames suite.tests) := by
  have hmain := suite_loop_completed_names suite.tests stop hnd trace
    ⟨[], suite.tests⟩ 0 R (by simp [resNames]) (by simp)
    (by rw [recompute_nil]) hv hc
  refine ⟨?_, rfl, hmain.1, hmain.2⟩
  simp [run_suite, hc]

/-- Witness for C2: a two-test suite whose first `schedule` call is
interrupted by a kernel error after recording test "a", and whose resumed
second call records test "b": the final collection holds exactly one
result per test name. -/
theorem C2_witness :
    (testNames (Suite.mk "s" [Test.mk "a" "cmd-a" false,
      Test.mk "b" "cmd-b" false]).tests).Nodup ∧
    ((resNames [TestResults.mk "a" 1 0 0 0 0 0 3 "ok",
        TestResults.mk "b" 1 0 0 0 0 0 2 "ok"]).Nodup ∧
      ∀ n, n ∈ resNames [TestResults.mk "a" 1 0 0 0 0 0 3 "ok",
          TestResults.mk "b" 1 0 0 0 0 0 2 "ok"] ↔
        n ∈ testNames (Suite.mk "s" [Test.mk "a" "cmd-a" false,
          Test.mk "b" "cmd-b" false]).tests) := by
  have h2 := C2_suite_results_one_per_test
    (Suite.mk "s" [Test.mk "a" "cmd-a" false, Test.mk "b" "cmd-b" false])
    (SutInfo.mk "d" "v" "k" "x" "c" "r" "w")
    (fun _ => false)
    [IterSpec.mk .kernelError [TestResults.mk "a" 1 0 0 0 0 0 3 "ok"],
     IterSpec.mk .normal [TestResults.mk "b" 1 0 0 0 0 0 2 "ok"]]
    [TestResults.mk "a" 1 0 0 0 0 0 3 "ok", TestResults.mk "b" 1 0 0 0 0 0 2 "ok"]
    (by decide)
    ⟨⟨by decide, by decide⟩, ⟨by decide, by decide⟩, trivial⟩
    (by decide)
  exact ⟨by decide, h2.2.2.1, h2.2.2.2⟩

/-- Claim C8: on a suite-wide timeout the loop gives every test without a
recorded result a synthetic result with return code 32 and `skipped = 1`
(all other counts zero) and stops; consequently a suite whose timeout is
shorter than any test's execution (the first `schedule` call times out
having collected nothing) yields a `SuiteResults` where every test of the
suite has return code 32 and `skipped = 1`. -/
theorem C8_suite_timeout_synthetic_results :
    (∀ (suiteTests : List Test) (stop : Nat → Bool) (st : LoopState) (k : Nat)
        (rest : List IterSpec) (iterRes : List TestResults),
      stop k = false → st.tests_left ≠ [] →
      suite_loop suiteTests stop st k (⟨.timedOut, iterRes⟩ :: rest) =
        .completed ((st.tests_results ++ iterRes) ++
          (recompute suiteTests (st.tests_results ++ iterRes)).map syntheticSkipped) ∧
      ∀ r ∈ (recompute suiteTests (st.tests_results ++ iterRes)).map syntheticSkipped,
        r.retcode = 32 ∧ r.skipped = 1 ∧ r.passed = 0 ∧ r.failed = 0 ∧
          r.broken = 0 ∧ r.warnings = 0) ∧
    (∀ (suite : Suite) (info : SutInfo), suite.tests ≠ [] →
      (run_suite suite info (fun _ => false) [⟨.timedOut, []⟩]).suiteResultsAppended =
        [build_suite_results suite info (suite.tests.map syntheticSkipped)] ∧
      ∀ r ∈ suite.tests.map syntheticSkipped, r.retcode = 32 ∧ r.skipped = 1) := by
  have hsyn : ∀ (l : List Test), ∀ r ∈ l.map syntheticSkipped,
      r.retcode = 32 ∧ r.skipped = 1 ∧ r.passed = 0 ∧ r.failed = 0 ∧
        r.broken = 0 ∧ r.warnings = 0 := by
    intro l r hr
    obtain ⟨t, _, rfl⟩ := List.mem_map.mp hr
    exact ⟨rfl, rfl, rfl, rfl, rfl, rfl⟩
  constructor
  · intro suiteTests stop st k rest iterRes hstop hleft
    refine ⟨?_, hsyn _⟩
    simp only [suite_loop]
    rw [if_neg (by simp [hstop]), if_neg (by simp [hleft])]
  · intro suite info hne
    have hloop : suite_loop suite.tests (fun _ => false) ⟨[], suite.tests⟩ 0
        [⟨.timedOut, []⟩] = .completed (suite.tests.map syntheticSkipped) := by
      simp only [suite_loop]
      rw [if_neg (by simp), if_neg (by simp [hne])]
      simp [recompute_nil]
    refine ⟨?_, fun r hr => ⟨(hsyn _ r hr).1, (hsyn _ r hr).2.1⟩⟩
    simp [run_suite, hloop]

/-- Witness for C8: a two-test suite whose first (and only) `schedule`
call times out with nothing collected: both tests end with return code
32 and `skipped = 1` in the appended `SuiteResults`. -/
theorem C8_witness :
    (Suite.mk "s" [Test.mk "a" "cmd-a" false, Test.mk "b" "cmd-b" false]).tests ≠ [] ∧
    ((run_suite (Suite.mk "s" [Test.mk "a" "cmd-a" false, Test.mk "b" "cmd-b" false])
        (SutInfo.mk "d" "v" "k" "x" "c" "r" "w")
        (fun _ => false) [⟨.timedOut, []⟩]).suiteResultsAppended =
      [build_suite_results
        (Suite.mk "s" [Test.mk "a" "cmd-a" false, Test.mk "b" "cmd-b" false])
        (SutInfo.mk "d" "v" "k" "x" "c" "r" "w")
        ((Suite.mk "s" [Test.mk "a" "cmd-a" false,
          Test.mk "b" "cmd-b" false]).tests.map syntheticSkipped)] ∧
      ∀ r ∈ (Suite.mk "s" [Test.mk "a" "cmd-a" false,
          Test.mk "b" "cmd-b" false]).tests.map syntheticSkipped,
        r.retcode = 32 ∧ r.skipped = 1) :=
  ⟨by decide,
    C8_suite_timeout_synthetic_results.2
      (Suite.mk "s" [Test.mk "a" "cmd-a" false, Test.mk "b" "cmd-b" false])
      (SutInfo.mk "d" "v" "k" "x" "c" "r" "w") (by decide)⟩

theorem suite_loop_fatal_results (suiteTests : List Test) (stop : Nat → Bool) :
    ∀ (trace : List IterSpec) (st : LoopState) (k : Nat) (R : List TestResults),
      suite_loop suiteTests stop st k trace = .fatal R →
      ∃ i < trace.length,
        R = st.tests_results ++ ((trace.take (i + 1)).map IterSpec.res).flatten := by
  intro trace
  induction trace with
  | nil =>
    intro st k R h
    simp only [suite_loop] at h
    split at h
    · exact LoopResult.noConfusion h
    · split at h
      · exact LoopResult.noConfusion h
      · exact LoopResult.noConfusion h
  | cons iter rest ih =>
    intro st k R h
    simp only [suite_loop] at h
    split at h
    · exact LoopResult.noConfusion h
    · split at h
      · exact LoopResult.noConfusion h
      · cases ho : iter.outcome with
        | fatal =>
          simp only [ho] at h
          obtain rfl : st.tests_results ++ iter.res = R := by injection h
          exact ⟨0, by simp, by simp⟩
        | timedOut =>
          simp only [ho] at h
          exact LoopResult.noConfusion h
        | normal =>
          simp only [ho] at h
          obtain ⟨i, hi, hR⟩ := ih _ (k + 1) R h
          refine ⟨i + 1, by simpa using Nat.succ_lt_succ hi, ?_⟩
          rw [hR]
          simp [List.append_assoc]
        | kernelError =>
          simp only [ho] at h
          obtain ⟨i, hi, hR⟩ := ih _ (k + 1) R h
          refine ⟨i + 1, by simpa using Nat.succ_lt_succ hi, ?_⟩
          rw [hR]
          simp [List.append_assoc]

/-- Claim C9: when an unrecoverable error escapes the suite loop (a
kernel error whose `_restart_sut` itself raised, e.g. `SUTError` from
`ensure_communicate`), the outer `finally` still builds the
`SuiteResults` from every result accumulated so far (the concatenation
of all inner-scheduler results of the completed iterations), fires
`suite_completed`, and appends it to the run's collection before the
error propagates: partial results are never lost to a fatal error. -/
theorem C9_suite_result_survives_fatal_error
    (suite : Suite) (info : SutInfo) (stop : Nat → Bool) (trace : List IterSpec)
    (R : List TestResults)
    (h : suite_loop suite.tests stop ⟨[], suite.tests⟩ 0 trace = .fatal R) :
    (run_suite suite info stop trace).suiteResultsAppended =
      [build_suite_results suite info R] ∧
    (run_suite suite info stop trace).firedSuiteCompleted = true ∧
    (run_suite suite info stop trace).raised = true ∧
    (build_suite_results suite info R).tests = R ∧
    ∃ i < trace.length, R = ((trace.take (i + 1)).map IterSpec.res).flatten := by
  refine ⟨?_, ?_, ?_, rfl, ?_⟩
  · simp [run_suite, h]
  · simp [run_suite, h]
  · simp [run_suite, h]
  · obtain ⟨i, hi, hR⟩ := suite_loop_fatal_results suite.tests stop trace _ 0 R h
    exact ⟨i, hi, by simpa using hR⟩

/-- Witness for C9: a one-test suite whose reboot fails after a kernel
error: the test result recorded before the fatal error is still in the
appended `SuiteResults`, and the error is re-raised. -/
theorem C9_witness :
    suite_loop (Suite.mk "s" [Test.mk "a" "cmd-a" false]).tests (fun _ => false)
      ⟨[], (Suite.mk "s" [Test.mk "a" "cmd-a" false]).tests⟩ 0
      [IterSpec.mk .fatal [TestResults.mk "a" 0 1 0 0 0 1 2 "x"]] =
      .fatal [TestResults.mk "a" 0 1 0 0 0 1 2 "x"] ∧
    ((run_suite (Suite.mk "s" [Test.mk "a" "cmd-a" false])
        (SutInfo.mk "d" "v" "k" "x" "c" "r" "w") (fun _ => false)
        [IterSpec.mk .fatal [TestResults.mk "a" 0 1 0 0 0 1 2 "x"]]).suiteResultsAppended =
      [build_suite_results (Suite.mk "s" [Test.mk "a" "cmd-a" false])
        (SutInfo.mk "d" "v" "k" "x" "c" "r" "w")
        [TestResults.mk "a" 0 1 0 0 0 1 2 "x"]] ∧
    (run_suite (Suite.mk "s" [Test.mk "a" "cmd-a" false])
        (SutInfo.mk "d" "v" "k" "x" "c" "r" "w") (fun _ => false)
        [IterSpec.mk .fatal [TestResults.mk "a" 0 1 0 0 0 1 2 "x"]]).raised = true) := by
  have h9 := C9_suite_result_survives_fatal_error
    (Suite.mk "s" [Test.mk "a" "cmd-a" false])
    (SutInfo.mk "d" "v" "k" "x" "c" "r" "w") (fun _ => false)
    [IterSpec.mk .fatal [TestResults.mk "a" 0 1 0 0 0 1 2 "x"]]
    [TestResults.mk "a" 0 1 0 0 0 1 2 "x"] (by decide)
  exact ⟨by decide, h9.1, h9.2.2.1⟩
